import Mathlib

/-!
# Verification of the `piet-gpu` tessellation core

Shallow embedding of the path normalizer, rasterizer, stroke routing
(`crates/piet-hardware/src/rasterizer.rs`), the WGPU texture state machine
(`crates/piet-wgpu/src/texture.rs`) and the GL example backend's context
assertions (`crates/piet-gpu/examples/gl.rs`), together with theorems about
the spec's claims.

Modelling conventions:
* `f64` coordinates are modelled as `ℚ`; the `f64 → f32` casts in the source
  are modelled as the identity (the claims under study are structural and do
  not depend on floating-point rounding).
* Rust panics (`panic!`, `expect`, `unwrap`) are modelled as `Option`/`Except`
  failure values.
* Lazy Rust iterators are modelled as functions on lists: the list of events
  produced by fully driving the iterator.
-/

/-! ## Path normalizer (`rasterizer.rs`, `shape_to_lyon_path` / `PathConverter`) -/

/-- A 2D point (`kurbo::Point`, coordinates modelled as `ℚ`). -/
structure Pt where
  x : ℚ
  y : ℚ
deriving DecidableEq, Repr

/-- `kurbo::PathEl`: one instruction of a path. -/
inductive PathEl where
  | MoveTo (pt : Pt)
  | LineTo (pt : Pt)
  | QuadTo (ctrl1 pt : Pt)
  | CurveTo (ctrl1 ctrl2 pt : Pt)
  | ClosePath
deriving DecidableEq, Repr

/-- `lyon` `PathEvent`: one canonical event emitted by the normalizer. -/
inductive PathEvent where
  | Begin (at_ : Pt)
  | Line (from_ to_ : Pt)
  | Quadratic (from_ ctrl to_ : Pt)
  | Cubic (from_ ctrl1 ctrl2 to_ : Pt)
  | End (last first : Pt) (close : Bool)
deriving DecidableEq, Repr

/-- `approx_eq` from `rasterizer.rs`: `(a - b).abs() < 0.01`. -/
def approx_eq (a b : ℚ) : Bool := |a - b| < 1 / 100

/-- The mutable state of `PathConverter` (fields `last`, `first`, `needs_close`). -/
structure ConvState where
  last : Option Pt
  first : Option Pt
  needs_close : Bool
deriving DecidableEq, Repr

/-- Initial `PathConverter` state (`last: None, first: None, needs_close: false`). -/
def convInit : ConvState := ⟨none, none, false⟩

/-- The `close` closure inside `PathConverter::next`: takes `first` and `last`
out of the state and, when both were set and
`(!approx_eq(first.x, last.x) || !approx_eq(first.y, last.y)) || (needs_close || close)`
holds, resets `needs_close` and emits `Event::End { last, first, close }`. -/
def closeFn (s : ConvState) (close : Bool) : ConvState × Option PathEvent :=
  let s' : ConvState := { s with first := none, last := none }
  match s.first, s.last with
  | some first, some last =>
    if (!approx_eq first.x last.x || !approx_eq first.y last.y)
        || (s.needs_close || close) then
      ({ s' with needs_close := false }, some (.End last first close))
    else
      (s', none)
  | _, _ => (s', none)

/-- One step of `PathConverter::next` for a single path element.  Returns
`none` when the source would panic (the `expect("last point should be set")`
on a segment with no current point). -/
def stepEl (s : ConvState) : PathEl → Option (ConvState × List PathEvent)
  | .MoveTo pt =>
    let (s1, ev) := closeFn s false
    let s2 : ConvState := { s1 with first := some pt, last := some pt }
    some (s2, ev.toList ++ [.Begin pt])
  | .LineTo pt =>
    match s.last with
    | none => none
    | some from_ =>
      some ({ s with needs_close := true, last := some pt }, [.Line from_ pt])
  | .QuadTo ctrl1 pt =>
    match s.last with
    | none => none
    | some from_ =>
      some ({ s with needs_close := true, last := some pt },
        [.Quadratic from_ ctrl1 pt])
  | .CurveTo ctrl1 ctrl2 pt =>
    match s.last with
    | none => none
    | some from_ =>
      some ({ s with needs_close := true, last := some pt },
        [.Cubic from_ ctrl1 ctrl2 pt])
  | .ClosePath =>
    let (s1, ev) := closeFn s true
    some (s1, ev.toList)

/-- Driving `PathConverter` over a list of path elements, collecting the
emitted events and the final converter state. -/
def pathConverterRun : ConvState → List PathEl → Option (ConvState × List PathEvent)
  | s, [] => some (s, [])
  | s, el :: rest =>
    match stepEl s el with
    | none => none
    | some (s', evs) =>
      match pathConverterRun s' rest with
      | none => none
      | some (s'', evs') => some (s'', evs ++ evs')

/-- `shape_to_lyon_path`: the full event stream of the converter — the events
of every element, followed by the end-of-input `close(self, false)` events. -/
def shape_to_lyon_path (els : List PathEl) : Option (List PathEvent) :=
  match pathConverterRun convInit els with
  | none => none
  | some (s, evs) => some (evs ++ (closeFn s false).2.toList)

/-- Whether an element is a `MoveTo`. -/
def PathEl.isMoveTo : PathEl → Bool
  | .MoveTo _ => true
  | _ => false

/-- Whether an event is a `Begin`. -/
def PathEvent.isBegin : PathEvent → Bool
  | .Begin _ => true
  | _ => false

/-- Whether an event is an `End`. -/
def PathEvent.isEnd : PathEvent → Bool
  | .End _ _ _ => true
  | _ => false

/-- Number of `Begin` events in a stream. -/
def countBegin (evs : List PathEvent) : ℕ := evs.countP PathEvent.isBegin

/-- Number of `End` events in a stream. -/
def countEnd (evs : List PathEvent) : ℕ := evs.countP PathEvent.isEnd

/-- Well-formedness of a path relative to an open/closed subpath flag:
every segment instruction (`LineTo`/`QuadTo`/`CurveTo`) occurs while a
subpath is open (a `MoveTo` was seen and not yet terminated by `ClosePath`). -/
def wellFormedFrom : Bool → List PathEl → Bool
  | _, [] => true
  | _, .MoveTo _ :: rest => wellFormedFrom true rest
  | _, .ClosePath :: rest => wellFormedFrom false rest
  | isOpen, _ :: rest => isOpen && wellFormedFrom isOpen rest

/-- A well-formed path: every non-`MoveTo` segment instruction is preceded by
a `MoveTo` in its subpath. -/
def wellFormed (els : List PathEl) : Bool := wellFormedFrom false els

/-- A point is approximately equal to itself: `|a - a| = 0 < 0.01`. -/
theorem approx_eq_self (a : ℚ) : approx_eq a a = true := by
  simp only [approx_eq, sub_self, abs_zero, decide_eq_true_eq]
  norm_num

example : wellFormed [.MoveTo ⟨0, 0⟩, .LineTo ⟨10, 0⟩, .LineTo ⟨0, 0⟩] = true := by decide

example :
    shape_to_lyon_path [.MoveTo ⟨0, 0⟩, .LineTo ⟨10, 0⟩, .LineTo ⟨0, 0⟩] =
      some [.Begin ⟨0, 0⟩, .Line ⟨0, 0⟩ ⟨10, 0⟩, .Line ⟨10, 0⟩ ⟨0, 0⟩,
        .End ⟨0, 0⟩ ⟨0, 0⟩ false] := by
  simp [shape_to_lyon_path, pathConverterRun, stepEl, closeFn, convInit]

example :
    shape_to_lyon_path [.MoveTo ⟨0, 0⟩, .MoveTo ⟨5, 5⟩] =
      some [.Begin ⟨0, 0⟩, .Begin ⟨5, 5⟩] := by
  simp [shape_to_lyon_path, pathConverterRun, stepEl, closeFn, convInit, approx_eq_self]

/-- Abstract per-subpath counting state: `none` = no subpath currently open,
`some hasSeg` = a subpath is open and `hasSeg` records whether it has emitted
at least one segment event so far. -/
def endEmittedNow : Option Bool → Bool → ℕ
  | none, _ => 0
  | some hasSeg, cl => if hasSeg || cl then 1 else 0

/-- Number of `End` events the converter emits while consuming the elements
(not counting the end-of-input close), predicted from the element list. -/
def innerEnds : Option Bool → List PathEl → ℕ
  | _, [] => 0
  | st, .MoveTo _ :: rest => endEmittedNow st false + innerEnds (some false) rest
  | st, .ClosePath :: rest => endEmittedNow st true + innerEnds none rest
  | st, _ :: rest => innerEnds (st.map fun _ => true) rest

/-- The abstract subpath state after consuming the elements. -/
def runSubSt : Option Bool → List PathEl → Option Bool
  | st, [] => st
  | _, .MoveTo _ :: rest => runSubSt (some false) rest
  | _, .ClosePath :: rest => runSubSt none rest
  | st, _ :: rest => runSubSt (st.map fun _ => true) rest

/-- Total number of `End` events predicted for a whole path, including the
end-of-input close: one per subpath that contains at least one segment
instruction or an explicit `ClosePath`. -/
def totalEnds (els : List PathEl) : ℕ :=
  innerEnds none els + endEmittedNow (runSubSt none els) false

/-- Number of `MoveTo` instructions (= subpaths opened). -/
def countMoveTo (els : List PathEl) : ℕ := els.countP PathEl.isMoveTo

/-- The abstraction relation between a concrete converter state and the
abstract subpath state: when no subpath is open, `first`/`last` are unset and
`needs_close` is clear; when one is open, `first`/`last` are set,
`needs_close` records whether a segment was emitted, and before any segment
the two points are literally equal. -/
def SubAbs (s : ConvState) : Option Bool → Prop
  | none => s.first = none ∧ s.last = none ∧ s.needs_close = false
  | some b => ∃ f l, s.first = some f ∧ s.last = some l ∧ s.needs_close = b ∧
      (b = false → f = l)

/-- The `close` closure never emits `Begin`, emits an `End` exactly when
`endEmittedNow` predicts one, and leaves the converter with no open subpath. -/
theorem closeFn_spec (s : ConvState) (st : Option Bool) (cl : Bool) (h : SubAbs s st) :
    countBegin (closeFn s cl).2.toList = 0 ∧
    countEnd (closeFn s cl).2.toList = endEmittedNow st cl ∧
    SubAbs (closeFn s cl).1 none := by
  cases st with
  | none =>
    obtain ⟨h1, h2, h3⟩ := h
    simp [closeFn, h1, h2, h3, countBegin, countEnd, endEmittedNow, SubAbs]
  | some b =>
    obtain ⟨f, l, h1, h2, h3, h4⟩ := h
    by_cases hb : (b || cl) = true
    · have hcond : ((!approx_eq f.x l.x || !approx_eq f.y l.y)
          || (s.needs_close || cl)) = true := by
        rw [h3]
        simp only [Bool.or_eq_true] at hb ⊢
        tauto
      simp [closeFn, h1, h2, hcond, countBegin, countEnd, endEmittedNow, SubAbs,
        PathEvent.isBegin, PathEvent.isEnd, hb]
    · have hb' : b = false ∧ cl = false := by
        simpa [Bool.or_eq_true] using hb
      obtain ⟨hbf, hcf⟩ := hb'
      have hfl : f = l := h4 hbf
      subst hfl hbf hcf
      simp [closeFn, h1, h2, approx_eq_self, countBegin, countEnd, endEmittedNow,
        SubAbs, h3]

/-- Main invariant of the converter: on well-formed input it never panics,
emits one `Begin` per `MoveTo` and exactly the `End` events predicted by
`innerEnds`, and ends in a state abstracted by `runSubSt`. -/
theorem pathConverterRun_spec (els : List PathEl) :
    ∀ (s : ConvState) (st : Option Bool),
    SubAbs s st → wellFormedFrom st.isSome els = true →
    ∃ s' evs, pathConverterRun s els = some (s', evs) ∧
      SubAbs s' (runSubSt st els) ∧
      countBegin evs = countMoveTo els ∧
      countEnd evs = innerEnds st els := by
  induction els with
  | nil =>
    intro s st h _
    exact ⟨s, [], rfl, h, by simp [countBegin, countMoveTo],
      by simp [countEnd, innerEnds]⟩
  | cons el rest ih =>
    intro s st h hwf
    cases el with
    | MoveTo pt =>
      obtain ⟨hcb, hce, hA⟩ := closeFn_spec s st false h
      have hA2 : SubAbs { (closeFn s false).1 with
          first := some pt, last := some pt } (some false) := by
        obtain ⟨_, _, e3⟩ := hA
        exact ⟨pt, pt, rfl, rfl, e3, fun _ => rfl⟩
      obtain ⟨s', evs, hrun, habs, hb, he⟩ :=
        ih _ (some false) hA2 (by simpa [wellFormedFrom] using hwf)
      refine ⟨s', ((closeFn s false).2.toList ++ [.Begin pt]) ++ evs, ?_, ?_, ?_, ?_⟩
      · simp [pathConverterRun, stepEl, hrun]
      · simpa [runSubSt] using habs
      · simp [countBegin, List.countP_append, List.countP_cons] at hcb hb ⊢
        simp [hcb, hb, countMoveTo, List.countP_cons, PathEvent.isBegin,
          PathEl.isMoveTo, countBegin]
        exact fun a ha => hcb a ha
      · simp [countEnd, List.countP_append, List.countP_cons] at hce he ⊢
        simp [hce, he, innerEnds, PathEvent.isEnd, countEnd]
    | LineTo pt =>
      have hopen : st.isSome = true ∧ wellFormedFrom st.isSome rest = true := by
        revert hwf
        cases st <;> simp [wellFormedFrom]
      obtain ⟨hsome, hwf'⟩ := hopen
      obtain ⟨b, rfl⟩ := Option.isSome_iff_exists.mp hsome
      obtain ⟨f, l, h1, h2, h3, _⟩ := h
      have hA2 : SubAbs { s with needs_close := true, last := some pt } (some true) :=
        ⟨f, pt, h1, rfl, rfl, fun hc => nomatch hc⟩
      obtain ⟨s', evs, hrun, habs, hb, he⟩ := ih _ (some true) hA2 hwf'
      refine ⟨s', [.Line l pt] ++ evs, ?_, ?_, ?_, ?_⟩
      · simp [pathConverterRun, stepEl, h2, hrun]
      · simpa [runSubSt] using habs
      · simpa [countBegin, List.countP_append, List.countP_cons, PathEvent.isBegin,
          countMoveTo, PathEl.isMoveTo] using hb
      · simpa [countEnd, List.countP_append, List.countP_cons, PathEvent.isEnd,
          innerEnds] using he
    | QuadTo ctrl1 pt =>
      have hopen : st.isSome = true ∧ wellFormedFrom st.isSome rest = true := by
        revert hwf
        cases st <;> simp [wellFormedFrom]
      obtain ⟨hsome, hwf'⟩ := hopen
      obtain ⟨b, rfl⟩ := Option.isSome_iff_exists.mp hsome
      obtain ⟨f, l, h1, h2, h3, _⟩ := h
      have hA2 : SubAbs { s with needs_close := true, last := some pt } (some true) :=
        ⟨f, pt, h1, rfl, rfl, fun hc => nomatch hc⟩
      obtain ⟨s', evs, hrun, habs, hb, he⟩ := ih _ (some true) hA2 hwf'
      refine ⟨s', [.Quadratic l ctrl1 pt] ++ evs, ?_, ?_, ?_, ?_⟩
      · simp [pathConverterRun, stepEl, h2, hrun]
      · simpa [runSubSt] using habs
      · simpa [countBegin, List.countP_append, List.countP_cons, PathEvent.isBegin,
          countMoveTo, PathEl.isMoveTo] using hb
      · simpa [countEnd, List.countP_append, List.countP_cons, PathEvent.isEnd,
          innerEnds] using he
    | CurveTo ctrl1 ctrl2 pt =>
      have hopen : st.isSome = true ∧ wellFormedFrom st.isSome rest = true := by
        revert hwf
        cases st <;> simp [wellFormedFrom]
      obtain ⟨hsome, hwf'⟩ := hopen
      obtain ⟨b, rfl⟩ := Option.isSome_iff_exists.mp hsome
      obtain ⟨f, l, h1, h2, h3, _⟩ := h
      have hA2 : SubAbs { s with needs_close := true, last := some pt } (some true) :=
        ⟨f, pt, h1, rfl, rfl, fun hc => nomatch hc⟩
      obtain ⟨s', evs, hrun, habs, hb, he⟩ := ih _ (some true) hA2 hwf'
      refine ⟨s', [.Cubic l ctrl1 ctrl2 pt] ++ evs, ?_, ?_, ?_, ?_⟩
      · simp [pathConverterRun, stepEl, h2, hrun]
      · simpa [runSubSt] using habs
      · simpa [countBegin, List.countP_append, List.countP_cons, PathEvent.isBegin,
          countMoveTo, PathEl.isMoveTo] using hb
      · simpa [countEnd, List.countP_append, List.countP_cons, PathEvent.isEnd,
          innerEnds] using he
    | ClosePath =>
      obtain ⟨hcb, hce, hA⟩ := closeFn_spec s st true h
      obtain ⟨s', evs, hrun, habs, hb, he⟩ :=
        ih _ none hA (by revert hwf; cases st <;> simp [wellFormedFrom])
      refine ⟨s', (closeFn s true).2.toList ++ evs, ?_, ?_, ?_, ?_⟩
      · simp [pathConverterRun, stepEl, hrun]
      · simpa [runSubSt] using habs
      · simp [countBegin, List.countP_append] at hcb hb ⊢
        simp [hcb, hb, countMoveTo, List.countP_cons, PathEl.isMoveTo, countBegin]
        exact fun a ha => hcb a ha
      · simp [countEnd, List.countP_append] at hce he ⊢
        simp [hce, he, innerEnds, countEnd]

/-- **C1 — counterexample.**  The claim says: for a well-formed path whose
final subpath is still open at end-of-input and whose first and last points
coincide within 0.01 units, the normalizer emits a final `End` with
`close = true`.  On the path `MoveTo (0,0); LineTo (10,0); LineTo (0,0)` the
first and last points coincide exactly, no explicit close occurs, yet the
final event is `End` with `close = false`: the `close` closure always copies
its `close` argument into the event, and the end-of-input call passes
`false`. -/
theorem c1_counterexample :
    wellFormed [PathEl.MoveTo ⟨0, 0⟩, .LineTo ⟨10, 0⟩, .LineTo ⟨0, 0⟩] = true ∧
    approx_eq 0 0 = true ∧
    shape_to_lyon_path [PathEl.MoveTo ⟨0, 0⟩, .LineTo ⟨10, 0⟩, .LineTo ⟨0, 0⟩] =
      some [.Begin ⟨0, 0⟩, .Line ⟨0, 0⟩ ⟨10, 0⟩, .Line ⟨10, 0⟩ ⟨0, 0⟩,
        .End ⟨0, 0⟩ ⟨0, 0⟩ false] := by
  refine ⟨by decide, approx_eq_self 0, ?_⟩
  simp [shape_to_lyon_path, pathConverterRun, stepEl, closeFn, convInit]

/-- **C1 (amended).**  At end-of-input with a subpath still open (both
`first` and `last` set), the normalizer appends a final `End` exactly when a
segment was emitted in the subpath (`needs_close`) or the first and last
points differ by at least 0.01 in some coordinate — and that `End` always
carries `close = false`; near-coincidence of the endpoints never causes
`close = true` (only an explicit `ClosePath` does). -/
theorem c1_end_of_input_close_is_false (els : List PathEl) (s : ConvState)
    (evs : List PathEvent) (f l : Pt)
    (h : pathConverterRun convInit els = some (s, evs))
    (hf : s.first = some f) (hl : s.last = some l) :
    shape_to_lyon_path els =
      some (evs ++
        (if ((!approx_eq f.x l.x || !approx_eq f.y l.y) || s.needs_close) = true
         then [PathEvent.End l f false] else [])) := by
  have hclose : (closeFn s false).2.toList =
      (if ((!approx_eq f.x l.x || !approx_eq f.y l.y) || s.needs_close) = true
       then [PathEvent.End l f false] else []) := by
    simp only [closeFn, hf, hl, Bool.or_false]
    split <;> simp_all
  simp [shape_to_lyon_path, h, hclose]

/-- Witness for `c1_end_of_input_close_is_false` at the concrete open path
`MoveTo (0,0); LineTo (1,0)`. -/
theorem c1_end_of_input_close_is_false_witness :
    pathConverterRun convInit [PathEl.MoveTo ⟨0, 0⟩, .LineTo ⟨1, 0⟩] =
      some (⟨some ⟨1, 0⟩, some ⟨0, 0⟩, true⟩,
        [.Begin ⟨0, 0⟩, .Line ⟨0, 0⟩ ⟨1, 0⟩]) ∧
    shape_to_lyon_path [PathEl.MoveTo ⟨0, 0⟩, .LineTo ⟨1, 0⟩] =
      some ([PathEvent.Begin ⟨0, 0⟩, .Line ⟨0, 0⟩ ⟨1, 0⟩] ++
        (if ((!approx_eq (0 : ℚ) 1 || !approx_eq (0 : ℚ) 0) || true) = true
         then [PathEvent.End ⟨1, 0⟩ ⟨0, 0⟩ false] else [])) :=
  ⟨by simp [pathConverterRun, stepEl, closeFn, convInit],
    c1_end_of_input_close_is_false [PathEl.MoveTo ⟨0, 0⟩, .LineTo ⟨1, 0⟩]
      ⟨some ⟨1, 0⟩, some ⟨0, 0⟩, true⟩ [.Begin ⟨0, 0⟩, .Line ⟨0, 0⟩ ⟨1, 0⟩]
      ⟨0, 0⟩ ⟨1, 0⟩
      (by simp [pathConverterRun, stepEl, closeFn, convInit]) rfl rfl⟩

/-- **C2 — counterexample.**  The claim says the normalizer emits exactly one
`Begin` and one `End` per subpath opened by a `MoveTo`, including subpaths
with no segment instructions.  The well-formed path
`MoveTo (0,0); MoveTo (5,5)` opens two subpaths, but the output contains two
`Begin` events and zero `End` events: an empty subpath whose first and last
points coincide and with `needs_close` clear produces no `End` at all. -/
theorem c2_counterexample :
    wellFormed [PathEl.MoveTo ⟨0, 0⟩, .MoveTo ⟨5, 5⟩] = true ∧
    countMoveTo [PathEl.MoveTo ⟨0, 0⟩, .MoveTo ⟨5, 5⟩] = 2 ∧
    shape_to_lyon_path [PathEl.MoveTo ⟨0, 0⟩, .MoveTo ⟨5, 5⟩] =
      some [.Begin ⟨0, 0⟩, .Begin ⟨5, 5⟩] ∧
    countEnd [PathEvent.Begin ⟨0, 0⟩, .Begin ⟨5, 5⟩] = 0 := by
  refine ⟨by decide, by decide, ?_, by decide⟩
  simp [shape_to_lyon_path, pathConverterRun, stepEl, closeFn, convInit, approx_eq_self]

/-- **C2 (amended).**  For every well-formed path the normalizer succeeds and
emits exactly one `Begin` per `MoveTo`; it emits exactly one `End` for each
subpath that contains at least one segment instruction or an explicit
`ClosePath` (that is `totalEnds`), while a subpath consisting of a bare
`MoveTo` receives a `Begin` but no `End`. -/
theorem c2_begin_end_counts (els : List PathEl) (h : wellFormed els = true) :
    shape_to_lyon_path els ≠ none ∧
    countBegin ((shape_to_lyon_path els).getD []) = countMoveTo els ∧
    countEnd ((shape_to_lyon_path els).getD []) = totalEnds els := by
  obtain ⟨s', evs, hrun, habs, hb, he⟩ :=
    pathConverterRun_spec els convInit none ⟨rfl, rfl, rfl⟩ h
  obtain ⟨hcb, hce, _⟩ := closeFn_spec s' (runSubSt none els) false habs
  have hout : shape_to_lyon_path els = some (evs ++ (closeFn s' false).2.toList) := by
    simp [shape_to_lyon_path, hrun]
  rw [hout]
  refine ⟨by simp, ?_, ?_⟩
  · simp only [Option.getD_some, countBegin, List.countP_append]
    simp only [countBegin] at hb hcb
    rw [hb, hcb]
    omega
  · simp only [Option.getD_some, countEnd, List.countP_append]
    simp only [countEnd] at he hce
    rw [he, hce, totalEnds]

/-- Witness for `c2_begin_end_counts` on the concrete path
`MoveTo (0,0); LineTo (3,4); ClosePath`. -/
theorem c2_begin_end_counts_witness :
    shape_to_lyon_path [PathEl.MoveTo ⟨0, 0⟩, .LineTo ⟨3, 4⟩, .ClosePath] ≠ none ∧
    countBegin ((shape_to_lyon_path
      [PathEl.MoveTo ⟨0, 0⟩, .LineTo ⟨3, 4⟩, .ClosePath]).getD []) =
      countMoveTo [PathEl.MoveTo ⟨0, 0⟩, .LineTo ⟨3, 4⟩, .ClosePath] ∧
    countEnd ((shape_to_lyon_path
      [PathEl.MoveTo ⟨0, 0⟩, .LineTo ⟨3, 4⟩, .ClosePath]).getD []) =
      totalEnds [PathEl.MoveTo ⟨0, 0⟩, .LineTo ⟨3, 4⟩, .ClosePath] :=
  c2_begin_end_counts _ (by decide)

/-! ## Stroke routing (`rasterizer.rs`, `Rasterizer::stroke_shape`) -/

/-- `piet::LineCap`. -/
inductive LineCap where
  | Butt
  | Round
  | Square
deriving DecidableEq, Repr

/-- `piet::LineJoin` (the `Miter` variant carries its limit). -/
inductive LineJoin where
  | Bevel
  | Round
  | Miter (limit : ℚ)
deriving DecidableEq, Repr

/-- `piet::StrokeStyle` (the fields read by `stroke_shape`). -/
structure StrokeStyle where
  line_cap : LineCap
  line_join : LineJoin
  dash_pattern : List ℚ
  dash_offset : ℚ
deriving DecidableEq, Repr

/-- `kurbo::Cap`. -/
inductive KurboCap where
  | Butt
  | Round
  | Square
deriving DecidableEq, Repr

/-- `kurbo::Join`. -/
inductive KurboJoin where
  | Bevel
  | Round
  | Miter
deriving DecidableEq, Repr

/-- `kurbo::Stroke`: the stroke description handed to kurbo's geometric dash
expansion. -/
structure KurboStroke where
  width : ℚ
  join : KurboJoin
  miter_limit : ℚ
  start_cap : KurboCap
  end_cap : KurboCap
  dash_pattern : List ℚ
  dash_offset : ℚ
deriving DecidableEq, Repr

/-- `kurbo::Stroke::new(width)`: round caps and joins, miter limit 4,
no dashes. -/
def kurboStrokeNew (width : ℚ) : KurboStroke :=
  { width := width, join := .Round, miter_limit := 4, start_cap := .Round,
    end_cap := .Round, dash_pattern := [], dash_offset := 0 }

/-- `lyon` `LineCap`. -/
inductive LyonCap where
  | Butt
  | Round
  | Square
deriving DecidableEq, Repr

/-- `lyon` `LineJoin`. -/
inductive LyonJoin where
  | Bevel
  | Round
  | Miter
deriving DecidableEq, Repr

/-- `lyon` `FillRule`. -/
inductive FillRule where
  | NonZero
  | EvenOdd
deriving DecidableEq, Repr

/-- `lyon` `FillOptions` (fields set by `fill_shape`). -/
structure FillOptions where
  fill_rule : FillRule
  tolerance : ℚ
deriving DecidableEq, Repr

/-- `lyon` `StrokeOptions` (fields set by `stroke_shape`). -/
structure StrokeOptions where
  tolerance : ℚ
  line_width : ℚ
  start_cap : LyonCap
  end_cap : LyonCap
  line_join : LyonJoin
  miter_limit : ℚ
deriving DecidableEq, Repr

/-- `lyon` `StrokeOptions::default()`: width 1, butt caps, miter join with
limit 4, tolerance 0.1. -/
def strokeOptionsDefault : StrokeOptions :=
  { tolerance := 1 / 10, line_width := 1, start_cap := .Butt, end_cap := .Butt,
    line_join := .Miter, miter_limit := 4 }

/-- Which tessellator a `stroke_shape` call ends up invoking, and with what
parameters.  `fill` records the kurbo stroke description used for the
geometric dash expansion (`kurbo::stroke(path, &stroke, tolerance)`) and the
fill options of the subsequent `fill_shape` call; the expanded path itself is
a black-box geometric computation. -/
inductive StrokeCall where
  | fill (dashStroke : KurboStroke) (kurboTolerance : ℚ) (options : FillOptions)
  | strokeDirect (options : StrokeOptions)
deriving DecidableEq, Repr

/-- `FillOptions::default()` then `fill_rule := mode; tolerance := tol`, as
built by `Rasterizer::fill_shape`. -/
def fill_shape_options (mode : FillRule) (tolerance : ℚ) : FillOptions :=
  { fill_rule := mode, tolerance := tolerance }

/-- `Rasterizer::stroke_shape`: with a non-empty dash pattern, build a kurbo
stroke (same width/cap/join), dash-expand the path with kurbo and fill the
result with `FillRule::NonZero`; otherwise tessellate the stroke directly
with lyon `StrokeOptions`. -/
def stroke_shape (tolerance width : ℚ) (style : StrokeStyle) : StrokeCall :=
  if !style.dash_pattern.isEmpty then
    let stroke0 := kurboStrokeNew width
    let cap : KurboCap := match style.line_cap with
      | .Butt => .Butt
      | .Round => .Round
      | .Square => .Square
    let stroke1 := { stroke0 with start_cap := cap, end_cap := cap }
    let stroke2 := match style.line_join with
      | .Bevel => { stroke1 with join := KurboJoin.Bevel }
      | .Round => { stroke1 with join := KurboJoin.Round }
      | .Miter limit => { stroke1 with miter_limit := limit, join := KurboJoin.Miter }
    let stroke3 :=
      { stroke2 with dash_offset := style.dash_offset, dash_pattern := style.dash_pattern }
    .fill stroke3 tolerance (fill_shape_options .NonZero tolerance)
  else
    let cvt_line_cap : LineCap → LyonCap := fun cap => match cap with
      | .Butt => .Butt
      | .Round => .Round
      | .Square => .Square
    let options0 := { strokeOptionsDefault with
      tolerance := tolerance, line_width := width,
      start_cap := cvt_line_cap style.line_cap,
      end_cap := cvt_line_cap style.line_cap }
    let options1 := match style.line_join with
      | .Bevel => { options0 with line_join := LyonJoin.Bevel }
      | .Round => { options0 with line_join := LyonJoin.Round }
      | .Miter limit =>
        { options0 with miter_limit := limit, line_join := LyonJoin.Miter }
    .strokeDirect options1

/-- The cap mapping used by both routes (`piet::LineCap` is mapped 1:1). -/
def capToKurbo : LineCap → KurboCap
  | .Butt => .Butt
  | .Round => .Round
  | .Square => .Square

/-- The join mapping to kurbo (1:1, forgetting the miter limit). -/
def joinToKurbo : LineJoin → KurboJoin
  | .Bevel => .Bevel
  | .Round => .Round
  | .Miter _ => .Miter

/-- The miter limit handed to kurbo: the style's limit for miter joins,
kurbo's default 4 otherwise. -/
def kurboMiterLimit : LineJoin → ℚ
  | .Miter limit => limit
  | _ => 4

/-- The cap mapping to lyon. -/
def capToLyon : LineCap → LyonCap
  | .Butt => .Butt
  | .Round => .Round
  | .Square => .Square

/-- The join mapping to lyon. -/
def joinToLyon : LineJoin → LyonJoin
  | .Bevel => .Bevel
  | .Round => .Round
  | .Miter _ => .Miter

/-- The miter limit handed to lyon: the style's limit for miter joins,
lyon's default 4 otherwise. -/
def lyonMiterLimit : LineJoin → ℚ
  | .Miter limit => limit
  | _ => 4

/-- **C3.**  A stroke with a non-empty dash pattern is never tessellated
directly: the path is dash-expanded by kurbo using a stroke with the same
width and the 1:1-mapped cap and join settings (and the style's dash pattern
and offset), and the result is filled with `FillRule::NonZero`.  A stroke
with an empty dash pattern goes straight to the stroke tessellator. -/
theorem c3_dash_routing (tolerance width : ℚ) (style : StrokeStyle) :
    (style.dash_pattern ≠ [] →
      stroke_shape tolerance width style =
        .fill
          { width := width, join := joinToKurbo style.line_join,
            miter_limit := kurboMiterLimit style.line_join,
            start_cap := capToKurbo style.line_cap,
            end_cap := capToKurbo style.line_cap,
            dash_pattern := style.dash_pattern, dash_offset := style.dash_offset }
          tolerance { fill_rule := .NonZero, tolerance := tolerance }) ∧
    (style.dash_pattern = [] →
      stroke_shape tolerance width style =
        .strokeDirect
          { tolerance := tolerance, line_width := width,
            start_cap := capToLyon style.line_cap,
            end_cap := capToLyon style.line_cap,
            line_join := joinToLyon style.line_join,
            miter_limit := lyonMiterLimit style.line_join }) := by
  constructor
  · intro hne
    have hemp : style.dash_pattern.isEmpty = false := by
      simpa [List.isEmpty_iff] using hne
    cases hj : style.line_join <;>
      simp [stroke_shape, hemp, kurboStrokeNew, fill_shape_options, capToKurbo,
        joinToKurbo, kurboMiterLimit, hj]
  · intro he
    have hemp : style.dash_pattern.isEmpty = true := by
      simp [List.isEmpty_iff, he]
    cases hj : style.line_join <;>
      simp [stroke_shape, hemp, strokeOptionsDefault, capToLyon, joinToLyon,
        lyonMiterLimit, hj]

/-- Witness for `c3_dash_routing`: a dashed square-cap bevel-join stroke is
dash-expanded and filled with `NonZero`, an undashed one is stroked
directly. -/
theorem c3_dash_routing_witness :
    stroke_shape 1 2 ⟨.Square, .Bevel, [3, 1], 5⟩ =
      .fill
        { width := 2, join := .Bevel, miter_limit := 4, start_cap := .Square,
          end_cap := .Square, dash_pattern := [3, 1], dash_offset := 5 }
        1 { fill_rule := .NonZero, tolerance := 1 } ∧
    stroke_shape 1 2 ⟨.Square, .Bevel, [], 5⟩ =
      .strokeDirect
        { tolerance := 1, line_width := 2, start_cap := .Square,
          end_cap := .Square, line_join := .Bevel, miter_limit := 4 } :=
  ⟨(c3_dash_routing 1 2 ⟨.Square, .Bevel, [3, 1], 5⟩).1 (by simp),
    (c3_dash_routing 1 2 ⟨.Square, .Bevel, [], 5⟩).2 rfl⟩

/-! ## Rasterizer mesh accumulator (`rasterizer.rs`, `Rasterizer::fill_rects`) -/

/-- `kurbo::Rect` (fields `x0, y0, x1, y1`). -/
structure Rect where
  x0 : ℚ
  y0 : ℚ
  x1 : ℚ
  y1 : ℚ
deriving DecidableEq, Repr

/-- A `piet::Color`, viewed through its `as_rgba8` accessor: four bytes. -/
structure PColor where
  r : ℕ
  g : ℕ
  b : ℕ
  a : ℕ
deriving DecidableEq, Repr

/-- The fixed vertex layout (`gpu_backend::Vertex`): position, uv, RGBA. -/
structure Vertex where
  pos : ℚ × ℚ
  uv : ℚ × ℚ
  color : PColor
deriving DecidableEq, Repr

/-- `lyon` `VertexBuffers<Vertex, u32>`: the shared growable mesh buffers. -/
structure VertexBuffers where
  vertices : List Vertex
  indices : List ℕ
deriving DecidableEq, Repr

/-- `TessRect`: one rectangle to tessellate. -/
structure TessRect where
  pos : Rect
  uv : Rect
  color : PColor
deriving DecidableEq, Repr

/-- The four vertices pushed per rectangle by the `vertices` closure of
`fill_rects`: top-left, top-right, bottom-right, bottom-left corners of
`pos_rect`, with the matching corners of `uv_rect` and the color's
`as_rgba8` bytes. -/
def rectVertices (pos_rect uv_rect : Rect) (color : PColor) : List Vertex :=
  [ { pos := (pos_rect.x0, pos_rect.y0), uv := (uv_rect.x0, uv_rect.y0), color := color },
    { pos := (pos_rect.x1, pos_rect.y0), uv := (uv_rect.x1, uv_rect.y0), color := color },
    { pos := (pos_rect.x1, pos_rect.y1), uv := (uv_rect.x1, uv_rect.y1), color := color },
    { pos := (pos_rect.x0, pos_rect.y1), uv := (uv_rect.x0, uv_rect.y1), color := color } ]

/-- The index block emitted for rectangle number `i`:
`[base, base+1, base+2, base, base+2, base+3]` with `base = i * 4`. -/
def rectIndexBlock (i : ℕ) : List ℕ :=
  [i * 4, i * 4 + 1, i * 4 + 2, i * 4, i * 4 + 2, i * 4 + 3]

/-- `Rasterizer::fill_rects`: extend the vertex buffer with the four corner
vertices of every rectangle, then extend the index buffer with
`(0..rect_count).flat_map(|i| [i*4, i*4+1, i*4+2, i*4, i*4+2, i*4+3])`,
where `rect_count` is the number of rectangles consumed in this call. -/
def fill_rects (buffers : VertexBuffers) (rects : List TessRect) : VertexBuffers :=
  { vertices := buffers.vertices ++
      (rects.map fun tess => rectVertices tess.pos tess.uv tess.color).flatten,
    indices := buffers.indices ++
      ((List.range rects.length).map rectIndexBlock).flatten }

/-- `Rasterizer::clear`: reset both buffers. -/
def rasterizer_clear (_buffers : VertexBuffers) : VertexBuffers :=
  { vertices := [], indices := [] }

/-- Membership in the closed axis-aligned rectangle. -/
def inRect (R : Rect) (p : ℚ × ℚ) : Prop :=
  R.x0 ≤ p.1 ∧ p.1 ≤ R.x1 ∧ R.y0 ≤ p.2 ∧ p.2 ≤ R.y1

/-- Membership in the closed triangle with vertices `a b c` (barycentric). -/
def inTri (a b c p : ℚ × ℚ) : Prop :=
  ∃ u v w : ℚ, 0 ≤ u ∧ 0 ≤ v ∧ 0 ≤ w ∧ u + v + w = 1 ∧
    p.1 = u * a.1 + v * b.1 + w * c.1 ∧ p.2 = u * a.2 + v * b.2 + w * c.2

/-- Membership in the open triangle with vertices `a b c` (all barycentric
coordinates strictly positive). -/
def inTriOpen (a b c p : ℚ × ℚ) : Prop :=
  ∃ u v w : ℚ, 0 < u ∧ 0 < v ∧ 0 < w ∧ u + v + w = 1 ∧
    p.1 = u * a.1 + v * b.1 + w * c.1 ∧ p.2 = u * a.2 + v * b.2 + w * c.2

/-- The two triangles `(TL,TR,BR)` and `(TL,BR,BL)` emitted by `fill_rects`
cover the closed rectangle exactly. -/
theorem rect_cover (R : Rect) (hx : R.x0 < R.x1) (hy : R.y0 < R.y1) (p : ℚ × ℚ) :
    inRect R p ↔
      (inTri (R.x0, R.y0) (R.x1, R.y0) (R.x1, R.y1) p ∨
        inTri (R.x0, R.y0) (R.x1, R.y1) (R.x0, R.y1) p) := by
  obtain ⟨x0, y0, x1, y1⟩ := R
  obtain ⟨px, py⟩ := p
  simp only [inRect, inTri] at *
  have hxs : (0 : ℚ) < x1 - x0 := by linarith
  have hys : (0 : ℚ) < y1 - y0 := by linarith
  constructor
  · rintro ⟨h1, h2, h3, h4⟩
    by_cases hd : (py - y0) * (x1 - x0) ≤ (px - x0) * (y1 - y0)
    · left
      refine ⟨(x1 - px) / (x1 - x0), 1 - (x1 - px) / (x1 - x0) - (py - y0) / (y1 - y0),
        (py - y0) / (y1 - y0), ?_, ?_, ?_, by ring, ?_, ?_⟩
      · exact div_nonneg (by linarith) hxs.le
      · have hle : (x1 - px) / (x1 - x0) + (py - y0) / (y1 - y0) ≤ 1 := by
          rw [div_add_div _ _ hxs.ne' hys.ne', div_le_one (by positivity)]
          nlinarith
        linarith
      · exact div_nonneg (by linarith) hys.le
      · field_simp
        ring
      · field_simp
        ring
    · right
      push_neg at hd
      refine ⟨(y1 - py) / (y1 - y0), (px - x0) / (x1 - x0),
        1 - (y1 - py) / (y1 - y0) - (px - x0) / (x1 - x0), ?_, ?_, ?_, by ring, ?_, ?_⟩
      · exact div_nonneg (by linarith) hys.le
      · exact div_nonneg (by linarith) hxs.le
      · have hle : (y1 - py) / (y1 - y0) + (px - x0) / (x1 - x0) ≤ 1 := by
          rw [div_add_div _ _ hys.ne' hxs.ne', div_le_one (by positivity)]
          nlinarith
        linarith
      · field_simp
        ring
      · field_simp
        ring
  · rintro (⟨u, v, w, hu, hv, hw, hs, hpx, hpy⟩ | ⟨u, v, w, hu, hv, hw, hs, hpx, hpy⟩) <;>
    · have husub : u = 1 - v - w := by linarith
      subst husub
      refine ⟨?_, ?_, ?_, ?_⟩ <;>
        nlinarith [mul_nonneg hu hxs.le, mul_nonneg hv hxs.le, mul_nonneg hw hxs.le,
          mul_nonneg hu hys.le, mul_nonneg hv hys.le, mul_nonneg hw hys.le]

/-- The interiors of the two triangles emitted by `fill_rects` are disjoint:
they only share the diagonal. -/
theorem tri_disjoint (R : Rect) (hx : R.x0 < R.x1) (hy : R.y0 < R.y1) (p : ℚ × ℚ) :
    ¬(inTriOpen (R.x0, R.y0) (R.x1, R.y0) (R.x1, R.y1) p ∧
      inTriOpen (R.x0, R.y0) (R.x1, R.y1) (R.x0, R.y1) p) := by
  obtain ⟨x0, y0, x1, y1⟩ := R
  obtain ⟨px, py⟩ := p
  simp only [inTriOpen]
  rintro ⟨⟨u, v, w, hu, hv, hw, hs, hpx, hpy⟩,
    ⟨u', v', w', hu', hv', hw', hs', hpx', hpy'⟩⟩
  have hxs : (0 : ℚ) < x1 - x0 := by linarith
  have hys : (0 : ℚ) < y1 - y0 := by linarith
  have husub : u = 1 - v - w := by linarith
  have husub' : u' = 1 - v' - w' := by linarith
  subst husub husub'
  have e1 : (px - x0) * (y1 - y0) - (py - y0) * (x1 - x0) =
      v * ((x1 - x0) * (y1 - y0)) := by
    rw [hpx, hpy]
    ring
  have e2 : (py - y0) * (x1 - x0) - (px - x0) * (y1 - y0) =
      w' * ((x1 - x0) * (y1 - y0)) := by
    rw [hpx', hpy']
    ring
  nlinarith [mul_pos hv (mul_pos hxs hys), mul_pos hw' (mul_pos hxs hys)]

/-- **C4.**  `fill_rects` on a single rectangle appends exactly the four
corner vertices of `R` in the winding order top-left, top-right,
bottom-right, bottom-left (with the matching corners of `U` as UV and the
color bytes), and exactly the six indices `[0,1,2,0,2,3]`; those two index
triples are two triangles with disjoint interiors whose union is exactly the
closed rectangle `R`. -/
theorem c4_fill_rects_single (R U : Rect) (C : PColor)
    (hx : R.x0 < R.x1) (hy : R.y0 < R.y1) :
    (fill_rects ⟨[], []⟩ [⟨R, U, C⟩]).vertices =
      [ { pos := (R.x0, R.y0), uv := (U.x0, U.y0), color := C },
        { pos := (R.x1, R.y0), uv := (U.x1, U.y0), color := C },
        { pos := (R.x1, R.y1), uv := (U.x1, U.y1), color := C },
        { pos := (R.x0, R.y1), uv := (U.x0, U.y1), color := C } ] ∧
    (fill_rects ⟨[], []⟩ [⟨R, U, C⟩]).indices = [0, 1, 2, 0, 2, 3] ∧
    (∀ p : ℚ × ℚ, inRect R p ↔
      (inTri (R.x0, R.y0) (R.x1, R.y0) (R.x1, R.y1) p ∨
        inTri (R.x0, R.y0) (R.x1, R.y1) (R.x0, R.y1) p)) ∧
    (∀ p : ℚ × ℚ, ¬(inTriOpen (R.x0, R.y0) (R.x1, R.y0) (R.x1, R.y1) p ∧
      inTriOpen (R.x0, R.y0) (R.x1, R.y1) (R.x0, R.y1) p)) := by
  refine ⟨?_, ?_, fun p => rect_cover R hx hy p, fun p => tri_disjoint R hx hy p⟩
  · simp [fill_rects, rectVertices]
  · simp [fill_rects, rectIndexBlock, List.range_succ]

/-- Witness for `c4_fill_rects_single` on the rectangle `(0,0)-(2,3)`. -/
theorem c4_fill_rects_single_witness :
    (0 : ℚ) < 2 ∧ (0 : ℚ) < 3 ∧
    (fill_rects ⟨[], []⟩
      [⟨⟨0, 0, 2, 3⟩, ⟨0, 0, 1, 1⟩, ⟨10, 20, 30, 40⟩⟩]).indices =
      [0, 1, 2, 0, 2, 3] :=
  ⟨by norm_num, by norm_num,
    (c4_fill_rects_single ⟨0, 0, 2, 3⟩ ⟨0, 0, 1, 1⟩ ⟨10, 20, 30, 40⟩
      (by norm_num) (by norm_num)).2.1⟩

/-- **C9.**  The indices appended by a `fill_rects` call are always exactly
`[4i, 4i+1, 4i+2, 4i, 4i+2, 4i+3]` for `i` in `0..n`, relative to the start
of that call only: whatever the initial buffers contain, the appended block
is the same and every appended index is below `4n`, so it is never offset by
the number of vertices already present in the shared vertex buffer. -/
theorem c9_fill_rects_indices_not_offset (buffers : VertexBuffers)
    (rects : List TessRect) :
    (fill_rects buffers rects).indices =
      buffers.indices ++ ((List.range rects.length).map rectIndexBlock).flatten ∧
    (∀ i ∈ ((List.range rects.length).map rectIndexBlock).flatten,
      i < 4 * rects.length) := by
  refine ⟨by simp [fill_rects], ?_⟩
  intro i hi
  simp only [List.mem_flatten, List.mem_map] at hi
  obtain ⟨block, ⟨j, hj, rfl⟩, hib⟩ := hi
  rw [List.mem_range] at hj
  simp only [rectIndexBlock, List.mem_cons, List.not_mem_nil, or_false] at hib
  rcases hib with rfl | rfl | rfl | rfl | rfl | rfl <;> omega

/-! ## WGPU texture state machine (`piet-wgpu/src/texture.rs`)

GPU objects (`wgpu::Texture`, `wgpu::Sampler`, `wgpu::BindGroup`) are
modelled as records tagged with a fresh identifier drawn from a device
counter, so that "the object was re-created" is visible as a change of
identifier.  `queue.write_texture` uploads are modelled as a returned
`Upload` record. -/

/-- `piet::ImageFormat` (the variants handled by the backend). -/
inductive ImageFormat where
  | Grayscale
  | Rgb
  | RgbaPremul
  | RgbaSeparate
deriving DecidableEq, Repr

/-- `piet::InterpolationMode`. -/
inductive InterpolationMode where
  | NearestNeighbor
  | Bilinear
deriving DecidableEq, Repr

/-- `wgpu::FilterMode`. -/
inductive FilterMode where
  | Nearest
  | Linear
deriving DecidableEq, Repr

/-- `wgpu::AddressMode` (the variants used). -/
inductive AddressMode where
  | ClampToEdge
  | Repeat
  | ClampToBorder
deriving DecidableEq, Repr

/-- `wgpu::SamplerBorderColor` (the variants used). -/
inductive SamplerBorderColor where
  | TransparentBlack
  | OpaqueBlack
  | OpaqueWhite
deriving DecidableEq, Repr

/-- `piet_hardware::RepeatStrategy` (the variants handled). -/
inductive RepeatStrategy where
  | Clamp
  | Repeat
  | Color (c : PColor)
deriving DecidableEq, Repr

/-- `piet::Color::TRANSPARENT`. -/
def colorTransparent : PColor := ⟨0, 0, 0, 0⟩

/-- `piet::Color::BLACK`. -/
def colorBlack : PColor := ⟨0, 0, 0, 255⟩

/-- `piet::Color::WHITE`. -/
def colorWhite : PColor := ⟨255, 255, 255, 255⟩

/-- `wgpu::TextureFormat` (the backend always allocates `Rgba8Unorm`). -/
inductive WgpuTextureFormat where
  | Rgba8Unorm
deriving DecidableEq, Repr

/-- A `wgpu::Sampler`, tagged with a fresh id. -/
structure Sampler where
  id : ℕ
  mag_filter : FilterMode
  min_filter : FilterMode
  address_mode : AddressMode
  border_color : Option SamplerBorderColor
deriving DecidableEq, Repr

/-- A `wgpu::Texture` backing allocation, tagged with a fresh id. -/
structure GpuTexture where
  id : ℕ
  format : WgpuTextureFormat
  size : ℕ × ℕ
deriving DecidableEq, Repr

/-- A `wgpu::BindGroup` (binds a texture view and a sampler), tagged with a
fresh id. -/
structure BindGroup where
  id : ℕ
  texture : ℕ
  sampler : ℕ
deriving DecidableEq, Repr

/-- The `wgpu::Device`, reduced to a fresh-id counter for created objects. -/
structure Device where
  fresh : ℕ
deriving DecidableEq, Repr

/-- `TextureInner`: the shared mutable per-texture state. -/
structure TextureInner where
  id : ℕ
  texture : Option GpuTexture
  sampler : Sampler
  format : ImageFormat
  interpolation : InterpolationMode
  address_mode : AddressMode
  border_color : Option SamplerBorderColor
  bind_group : Option BindGroup
deriving DecidableEq, Repr

/-- A `queue.write_texture` upload: the bytes sent and the layout declared
for them. -/
structure Upload where
  origin : ℕ × ℕ
  size : ℕ × ℕ
  data : List ℕ
  bytes_per_row : ℕ
  rows_per_image : ℕ
deriving DecidableEq, Repr

/-- `bytes_per_pixel` from `texture.rs`: always 4 for the supported
formats. -/
def bytes_per_pixel : ImageFormat → ℕ
  | .Grayscale => 4
  | .Rgb => 4
  | .RgbaPremul => 4
  | .RgbaSeparate => 4

/-- The grayscale expansion loop: each source byte becomes `RGB = byte`
with alpha 255. -/
def expandGrayscale (d : List ℕ) : List ℕ :=
  (d.map fun byte => [byte, byte, byte, 255]).flatten

/-- `chunks(3)` over a byte list. -/
def chunks3 : List ℕ → List (List ℕ)
  | [] => []
  | a :: b :: c :: rest => [a, b, c] :: chunks3 rest
  | rest => [rest]

/-- The RGB expansion: every 3-byte chunk is extended with alpha 255. -/
def expandRgb (d : List ℕ) : List ℕ :=
  ((chunks3 d).map fun chunk => chunk ++ [255]).flatten

/-- `TextureInner::recompute_bind_group`: without a backing texture the bind
group is cleared; otherwise a fresh bind group referencing the texture view
and the sampler is created. -/
def recompute_bind_group (dev : Device) (inner : TextureInner) :
    Device × TextureInner :=
  match inner.texture with
  | none => (dev, { inner with bind_group := none })
  | some t =>
    (⟨dev.fresh + 1⟩,
      { inner with bind_group := some ⟨dev.fresh, t.id, inner.sampler.id⟩ })

/-- `WgpuTexture::create_texture`: build the sampler from the interpolation
and repeat strategy; the texture starts unallocated, with format
`Grayscale` and no bind group. -/
def create_texture (dev : Device) (id : ℕ) (interpolation : InterpolationMode)
    (rep : RepeatStrategy) : Device × TextureInner :=
  let filter_mode := match interpolation with
    | .Bilinear => FilterMode.Linear
    | .NearestNeighbor => FilterMode.Nearest
  let bc_am : Option SamplerBorderColor × AddressMode := match rep with
    | .Clamp => (none, .ClampToEdge)
    | .Repeat => (none, .Repeat)
    | .Color c =>
      (some (if c = colorTransparent then .TransparentBlack
        else if c = colorBlack then .OpaqueBlack
        else if c = colorWhite then .OpaqueWhite
        else .OpaqueWhite), .ClampToBorder)
  let sampler : Sampler :=
    ⟨dev.fresh, filter_mode, filter_mode, bc_am.2, bc_am.1⟩
  (⟨dev.fresh + 1⟩,
    { id := id, texture := none, sampler := sampler, format := .Grayscale,
      interpolation := interpolation, address_mode := bc_am.2,
      border_color := bc_am.1, bind_group := none })

/-- `BorrowedTextureMut::write_texture`: when the texture is unallocated or
the stored format differs from the write's format, a new backing texture is
created (expanding grayscale/RGB source data to 4 bytes per pixel while
building the descriptor), the stored format is updated and the bind group is
recomputed; otherwise the existing state is reused unchanged.  In both cases
the (possibly defaulted-to-zeroes) data is uploaded with
`bytes_per_row = width * bytes_per_pixel`. -/
def write_texture (dev : Device) (inner : TextureInner) (size : ℕ × ℕ)
    (format : ImageFormat) (data : Option (List ℕ)) :
    Device × TextureInner × Upload :=
  let bpp := bytes_per_pixel format
  if inner.texture = none ∨ inner.format ≠ format then
    let data' : Option (List ℕ) := match format with
      | .Grayscale => data.map expandGrayscale
      | .Rgb => data.map expandRgb
      | .RgbaPremul => data
      | .RgbaSeparate => data
    let tex : GpuTexture := ⟨dev.fresh, .Rgba8Unorm, size⟩
    let dev1 : Device := ⟨dev.fresh + 1⟩
    let inner1 := { inner with format := format, texture := some tex }
    let (dev2, inner2) := recompute_bind_group dev1 inner1
    (dev2, inner2,
      ⟨(0, 0), size, data'.getD (List.replicate (size.1 * size.2 * bpp) 0),
        size.1 * bpp, size.2⟩)
  else
    (dev, inner,
      ⟨(0, 0), size, data.getD (List.replicate (size.1 * size.2 * bpp) 0),
        size.1 * bpp, size.2⟩)

/-- The panics of the texture wrapper. -/
inductive TexPanic where
  | formatMismatch
  | textureExpect
deriving DecidableEq, Repr

/-- `BorrowedTextureMut::write_subtexture`: panics on a format mismatch
before anything is uploaded; otherwise uploads the data to the sub-region
(the inner state is never modified). -/
def write_subtexture (inner : TextureInner) (offset size : ℕ × ℕ)
    (format : ImageFormat) (data : List ℕ) :
    Except TexPanic (TextureInner × Upload) :=
  if inner.format ≠ format then
    .error .formatMismatch
  else
    let bpp := bytes_per_pixel format
    match inner.texture with
    | none => .error .textureExpect
    | some _t =>
      .ok (inner, ⟨offset, size, data, size.1 * bpp, size.2⟩)

/-- `BorrowedTextureMut::set_texture_interpolation`: on a changed mode,
rebuild the sampler and recompute the bind group; otherwise do nothing. -/
def set_texture_interpolation (dev : Device) (inner : TextureInner)
    (interpolation : InterpolationMode) : Device × TextureInner :=
  if inner.interpolation ≠ interpolation then
    let interp_mode := match interpolation with
      | .NearestNeighbor => FilterMode.Nearest
      | .Bilinear => FilterMode.Linear
    let sampler : Sampler :=
      ⟨dev.fresh, interp_mode, interp_mode, inner.address_mode, inner.border_color⟩
    let dev1 : Device := ⟨dev.fresh + 1⟩
    let inner1 :=
      { inner with interpolation := interpolation, sampler := sampler }
    recompute_bind_group dev1 inner1
  else
    (dev, inner)

/-- The format-dependent source expansion performed while building the
texture descriptor (only on the reallocating branch). -/
def expandFor (format : ImageFormat) (data : Option (List ℕ)) : Option (List ℕ) :=
  match format with
  | .Grayscale => data.map expandGrayscale
  | .Rgb => data.map expandRgb
  | .RgbaPremul => data
  | .RgbaSeparate => data

/-- `write_texture` on a texture whose backing store exists and whose stored
format equals the written format leaves the device and the whole inner state
unchanged; only an upload happens, with the raw source data. -/
theorem write_texture_reuse (dev : Device) (inner : TextureInner)
    (size : ℕ × ℕ) (fmt : ImageFormat) (data : Option (List ℕ)) (t : GpuTexture)
    (ht : inner.texture = some t) (hf : inner.format = fmt) :
    write_texture dev inner size fmt data =
      (dev, inner,
        ⟨(0, 0), size,
          data.getD (List.replicate (size.1 * size.2 * bytes_per_pixel fmt) 0),
          size.1 * bytes_per_pixel fmt, size.2⟩) := by
  have hcond : ¬(inner.texture = none ∨ inner.format ≠ fmt) := by
    simp [ht, hf]
  simp only [write_texture]
  rw [if_neg hcond]

/-- `write_texture` on an unallocated texture, or with a format different
from the stored one, creates exactly one new backing texture and exactly one
new bind group, stores the new format, and uploads the (grayscale/RGB
expanded) data. -/
theorem write_texture_realloc (dev : Device) (inner : TextureInner)
    (size : ℕ × ℕ) (fmt : ImageFormat) (data : Option (List ℕ))
    (h : inner.texture = none ∨ inner.format ≠ fmt) :
    write_texture dev inner size fmt data =
      (⟨dev.fresh + 2⟩,
        { inner with
          format := fmt,
          texture := some ⟨dev.fresh, .Rgba8Unorm, size⟩,
          bind_group := some ⟨dev.fresh + 1, dev.fresh, inner.sampler.id⟩ },
        ⟨(0, 0), size,
          (expandFor fmt data).getD
            (List.replicate (size.1 * size.2 * bytes_per_pixel fmt) 0),
          size.1 * bytes_per_pixel fmt, size.2⟩) := by
  simp only [write_texture]
  rw [if_pos h]
  cases fmt <;> simp [recompute_bind_group, expandFor]

/-- **C5.**  A `write_texture` whose format matches the stored format on an
allocated texture changes neither the device-side objects nor any field of
the inner state (backing texture, format, bind group); a `write_texture` on
an unallocated texture or with a different format installs a freshly created
backing texture sized to the write, stores the new format, and rebuilds the
bind group exactly once (exactly two object creations).  Consequently
writing F1 then F1 again rebuilds nothing on the second write, and a third
write with F2 ≠ F1 performs exactly one additional texture + bind-group
creation pair. -/
theorem c5_write_texture_state_machine :
    (∀ (dev : Device) (inner : TextureInner) (size : ℕ × ℕ)
        (fmt : ImageFormat) (data : Option (List ℕ)) (t : GpuTexture),
      inner.texture = some t → inner.format = fmt →
      (write_texture dev inner size fmt data).1 = dev ∧
      (write_texture dev inner size fmt data).2.1 = inner) ∧
    (∀ (dev : Device) (inner : TextureInner) (size : ℕ × ℕ)
        (fmt : ImageFormat) (data : Option (List ℕ)),
      (inner.texture = none ∨ inner.format ≠ fmt) →
      (write_texture dev inner size fmt data).2.1.texture =
        some ⟨dev.fresh, .Rgba8Unorm, size⟩ ∧
      (write_texture dev inner size fmt data).2.1.format = fmt ∧
      (write_texture dev inner size fmt data).2.1.bind_group =
        some ⟨dev.fresh + 1, dev.fresh, inner.sampler.id⟩ ∧
      (write_texture dev inner size fmt data).1 = ⟨dev.fresh + 2⟩) ∧
    (∀ (dev : Device) (inner : TextureInner) (size : ℕ × ℕ)
        (f1 f2 : ImageFormat) (d1 d2 d3 : Option (List ℕ)),
      inner.texture = none → f1 ≠ f2 →
      (write_texture (write_texture dev inner size f1 d1).1
          (write_texture dev inner size f1 d1).2.1 size f1 d2).1 =
        (write_texture dev inner size f1 d1).1 ∧
      (write_texture (write_texture dev inner size f1 d1).1
          (write_texture dev inner size f1 d1).2.1 size f1 d2).2.1 =
        (write_texture dev inner size f1 d1).2.1 ∧
      (write_texture (write_texture dev inner size f1 d1).1
          (write_texture dev inner size f1 d1).2.1 size f2 d3).2.1.bind_group ≠
        (write_texture dev inner size f1 d1).2.1.bind_group ∧
      (write_texture (write_texture dev inner size f1 d1).1
          (write_texture dev inner size f1 d1).2.1 size f2 d3).1.fresh =
        (write_texture dev inner size f1 d1).1.fresh + 2) := by
  refine ⟨?_, ?_, ?_⟩
  · intro dev inner size fmt data t ht hf
    rw [write_texture_reuse dev inner size fmt data t ht hf]
    exact ⟨rfl, rfl⟩
  · intro dev inner size fmt data h
    rw [write_texture_realloc dev inner size fmt data h]
    exact ⟨rfl, rfl, rfl, rfl⟩
  · intro dev inner size f1 f2 d1 d2 d3 ht hne
    rw [write_texture_realloc dev inner size f1 d1 (Or.inl ht)]
    rw [write_texture_reuse _ _ size f1 d2 ⟨dev.fresh, .Rgba8Unorm, size⟩ rfl rfl]
    rw [write_texture_realloc _ _ size f2 d3 (Or.inr (by simpa using hne))]
    refine ⟨rfl, rfl, by simp, by simp⟩

/-- A sampler value used by the concrete witnesses. -/
def sampler0 : Sampler := ⟨0, .Nearest, .Nearest, .ClampToEdge, none⟩

/-- A texture whose grayscale backing store is already allocated (state after
a first grayscale `write_texture`). -/
def innerAllocatedGray : TextureInner :=
  ⟨0, some ⟨7, .Rgba8Unorm, (1, 1)⟩, sampler0, .Grayscale, .NearestNeighbor,
    .ClampToEdge, none, some ⟨8, 7, 0⟩⟩

/-- A freshly created, unallocated texture. -/
def innerUnallocated : TextureInner :=
  ⟨0, none, sampler0, .Grayscale, .NearestNeighbor, .ClampToEdge, none, none⟩

/-- Witness for `c5_write_texture_state_machine` at concrete states: a
matching grayscale write on an allocated texture is a state no-op, and the
F1,F1,F2 sequence from an unallocated texture rebuilds only on the first and
third writes. -/
theorem c5_write_texture_state_machine_witness :
    ((write_texture ⟨9⟩ innerAllocatedGray (1, 1) .Grayscale (some [128])).1 = ⟨9⟩ ∧
      (write_texture ⟨9⟩ innerAllocatedGray (1, 1) .Grayscale (some [128])).2.1 =
        innerAllocatedGray) ∧
    ((write_texture (write_texture ⟨9⟩ innerUnallocated (1, 1) .Grayscale (some [1])).1
        (write_texture ⟨9⟩ innerUnallocated (1, 1) .Grayscale (some [1])).2.1
        (1, 1) .Grayscale (some [2])).2.1 =
      (write_texture ⟨9⟩ innerUnallocated (1, 1) .Grayscale (some [1])).2.1 ∧
      (write_texture (write_texture ⟨9⟩ innerUnallocated (1, 1) .Grayscale (some [1])).1
          (write_texture ⟨9⟩ innerUnallocated (1, 1) .Grayscale (some [1])).2.1
          (1, 1) .Rgb (some [1, 2, 3])).2.1.bind_group ≠
        (write_texture ⟨9⟩ innerUnallocated (1, 1) .Grayscale (some [1])).2.1.bind_group) :=
  ⟨c5_write_texture_state_machine.1 ⟨9⟩ innerAllocatedGray (1, 1) .Grayscale
      (some [128]) ⟨7, .Rgba8Unorm, (1, 1)⟩ rfl rfl,
    (c5_write_texture_state_machine.2.2 ⟨9⟩ innerUnallocated (1, 1) .Grayscale .Rgb
        (some [1]) (some [2]) (some [1, 2, 3]) rfl (by decide)).2.1,
    (c5_write_texture_state_machine.2.2 ⟨9⟩ innerUnallocated (1, 1) .Grayscale .Rgb
        (some [1]) (some [2]) (some [1, 2, 3]) rfl (by decide)).2.2.1⟩

/-- **C6.**  Expansion of narrow source formats happens only on the
reallocating branch of `write_texture`.  On a texture already allocated as
grayscale, a matching grayscale write uploads the raw one-byte-per-pixel
buffer — not its 4-byte expansion — even though the declared layout
(`bytes_per_row = width * 4`) requires 4 bytes per pixel, so the uploaded
byte count contradicts the upload's own declared layout; the same write on
an unallocated texture uploads the expanded buffer. -/
theorem c6_reuse_branch_skips_expansion :
    (write_texture ⟨9⟩ innerAllocatedGray (1, 1) .Grayscale (some [128])).2.2.data =
      [128] ∧
    expandGrayscale [128] = [128, 128, 128, 255] ∧
    (write_texture ⟨9⟩ innerAllocatedGray (1, 1) .Grayscale
      (some [128])).2.2.bytes_per_row = 4 ∧
    (write_texture ⟨9⟩ innerAllocatedGray (1, 1) .Grayscale
        (some [128])).2.2.data.length ≠
      (write_texture ⟨9⟩ innerAllocatedGray (1, 1) .Grayscale
          (some [128])).2.2.bytes_per_row *
        (write_texture ⟨9⟩ innerAllocatedGray (1, 1) .Grayscale
          (some [128])).2.2.rows_per_image ∧
    (write_texture ⟨9⟩ innerUnallocated (1, 1) .Grayscale (some [128])).2.2.data =
      [128, 128, 128, 255] := by
  decide

/-- **C8.**  `write_subtexture` with a format different from the stored one
fails fatally with the format-mismatch panic before any upload, and a
successful call never modifies the texture state. -/
theorem c8_write_subtexture_mismatch_panics :
    (∀ (inner : TextureInner) (offset size : ℕ × ℕ) (fmt : ImageFormat)
        (data : List ℕ),
      inner.format ≠ fmt →
      write_subtexture inner offset size fmt data = .error .formatMismatch) ∧
    (∀ (inner : TextureInner) (offset size : ℕ × ℕ) (fmt : ImageFormat)
        (data : List ℕ) (out : TextureInner × Upload),
      write_subtexture inner offset size fmt data = .ok out → out.1 = inner) := by
  constructor
  · intro inner offset size fmt data h
    simp [write_subtexture, h]
  · intro inner offset size fmt data out h
    simp only [write_subtexture] at h
    split at h
    · exact absurd h (by simp)
    · split at h
      · exact absurd h (by simp)
      · cases h
        rfl

/-- Witness for `c8_write_subtexture_mismatch_panics`: an RGB sub-write on a
grayscale texture panics with the format mismatch. -/
theorem c8_write_subtexture_mismatch_panics_witness :
    write_subtexture innerAllocatedGray (0, 0) (1, 1) .Rgb [1, 2, 3] =
      .error .formatMismatch :=
  c8_write_subtexture_mismatch_panics.1 innerAllocatedGray (0, 0) (1, 1) .Rgb
    [1, 2, 3] (by decide)

/-- `WgpuTexture::bind_group`: clones the stored bind group, unwrapping —
the call panics exactly when the stored bind group is `none`. -/
def wgpu_texture_bind_group (inner : TextureInner) : Option BindGroup :=
  inner.bind_group

/-- One mutating operation on a texture (the operations that can build the
dependent bind group). -/
inductive TexOp where
  | write (size : ℕ × ℕ) (format : ImageFormat) (data : Option (List ℕ))
  | setInterpolation (mode : InterpolationMode)
deriving DecidableEq, Repr

/-- Whether an operation is a `write_texture`. -/
def TexOp.isWrite : TexOp → Bool
  | .write _ _ _ => true
  | .setInterpolation _ => false

/-- Apply one texture operation. -/
def applyTexOp (dev : Device) (inner : TextureInner) : TexOp → Device × TextureInner
  | .write size fmt data =>
    let r := write_texture dev inner size fmt data
    (r.1, r.2.1)
  | .setInterpolation m => set_texture_interpolation dev inner m

/-- Apply a sequence of texture operations. -/
def applyTexOps : Device → TextureInner → List TexOp → Device × TextureInner
  | dev, inner, [] => (dev, inner)
  | dev, inner, op :: rest =>
    let r := applyTexOp dev inner op
    applyTexOps r.1 r.2 rest

/-- Invariant: the backing texture and the bind group exist together, and
they come into existence exactly at the first `write_texture`. -/
theorem applyTexOps_bind_group (ops : List TexOp) :
    ∀ (dev : Device) (inner : TextureInner) (b : Bool),
    inner.texture.isSome = b → inner.bind_group.isSome = b →
    (applyTexOps dev inner ops).2.texture.isSome = (b || ops.any TexOp.isWrite) ∧
    (applyTexOps dev inner ops).2.bind_group.isSome = (b || ops.any TexOp.isWrite) := by
  induction ops with
  | nil =>
    intro dev inner b h1 h2
    simp [applyTexOps, h1, h2]
  | cons op rest ih =>
    intro dev inner b h1 h2
    cases op with
    | write size fmt data =>
      by_cases hcond : inner.texture = none ∨ inner.format ≠ fmt
      · have hre := write_texture_realloc dev inner size fmt data hcond
        have := ih (write_texture dev inner size fmt data).1
          (write_texture dev inner size fmt data).2.1 true
          (by rw [hre]; rfl) (by rw [hre]; rfl)
        simpa [applyTexOps, applyTexOp, TexOp.isWrite] using this
      · push_neg at hcond
        obtain ⟨hne, hfmt⟩ := hcond
        obtain ⟨t, ht⟩ := Option.ne_none_iff_exists'.mp hne
        have hre := write_texture_reuse dev inner size fmt data t ht hfmt
        have hb : b = true := by
          rw [← h1, ht]
          rfl
        have := ih (write_texture dev inner size fmt data).1
          (write_texture dev inner size fmt data).2.1 true
          (by rw [hre]; simpa [hb] using h1) (by rw [hre]; simpa [hb] using h2)
        simpa [applyTexOps, applyTexOp, TexOp.isWrite, hb] using this
    | setInterpolation m =>
      by_cases hm : inner.interpolation ≠ m
      · cases htex : inner.texture with
        | none =>
          have hb : b = false := by rw [← h1, htex]; rfl
          have := ih (set_texture_interpolation dev inner m).1
            (set_texture_interpolation dev inner m).2 false
            (by simp [set_texture_interpolation, hm, recompute_bind_group, htex])
            (by simp [set_texture_interpolation, hm, recompute_bind_group, htex])
          simpa [applyTexOps, applyTexOp, TexOp.isWrite, hb] using this
        | some t =>
          have hb : b = true := by rw [← h1, htex]; rfl
          have := ih (set_texture_interpolation dev inner m).1
            (set_texture_interpolation dev inner m).2 true
            (by simp [set_texture_interpolation, hm, recompute_bind_group, htex])
            (by simp [set_texture_interpolation, hm, recompute_bind_group, htex])
          simpa [applyTexOps, applyTexOp, TexOp.isWrite, hb] using this
      · have := ih dev inner b h1 h2
        simpa [applyTexOps, applyTexOp, TexOp.isWrite,
          set_texture_interpolation, hm] using this

/-- **C10.**  A texture on which `write_texture` has never been called holds
no bind group — `bind_group()` would unwrap `None` and panic — and after any
sequence of writes and interpolation changes, a bind group exists if and
only if at least one `write_texture` occurred. -/
theorem c10_bind_group_iff_written (dev0 : Device) (id : ℕ)
    (interp : InterpolationMode) (rep : RepeatStrategy) (ops : List TexOp) :
    wgpu_texture_bind_group (create_texture dev0 id interp rep).2 = none ∧
    (wgpu_texture_bind_group
        (applyTexOps (create_texture dev0 id interp rep).1
          (create_texture dev0 id interp rep).2 ops).2).isSome =
      ops.any TexOp.isWrite := by
  constructor
  · simp [wgpu_texture_bind_group, create_texture]
  · have := applyTexOps_bind_group ops (create_texture dev0 id interp rep).1
      (create_texture dev0 id interp rep).2 false
      (by simp [create_texture]) (by simp [create_texture])
    simpa [wgpu_texture_bind_group] using this.2

/-! ## GL example backend context assertions (`piet-gpu/examples/gl.rs`)

Each `GpuContext` operation of the GL backend is modelled by its control
flow around `assert_context` and its panicking `match` arms; the GL FFI
calls themselves are external side effects outside the embedding.  The
enums `ImageFormat` (with its `Rgba` variant), `DataType` and `DataFormat`
come from the `piet-gpu` crate, whose source is not part of the sample;
their variants are modelled from the spec: the attribute roles
`{Position, Texture, Color}` and component formats seen in the example's
matches. -/

/-- The panics of the GL backend. -/
inductive GlPanic where
  | noContext
  | unsupportedRepeatStrategy
  | unsupportedImageFormat
  | unsupportedDataType
  | unsupportedDataFormat
deriving DecidableEq, Repr

/-- `GlContext::assert_context`: panic when no context is installed. -/
def gl_assert_context (has_context : Bool) : Except GlPanic Unit :=
  if !has_context then .error .noContext else .ok ()

/-- Modelled from the spec: `piet_gpu::ImageFormat`, the pixel-format enum of
the GPU resource contract; the GL example handles only its `Rgba` variant. -/
inductive GlImageFormat where
  | Rgba
deriving DecidableEq, Repr

/-- Modelled from the spec: the attribute roles of a vertex layout
descriptor (`attribute role ∈ {Position, Texture, Color, …}`). -/
inductive DataType where
  | Position
  | Texture
  | Color
deriving DecidableEq, Repr

/-- Modelled from the spec: the component formats of a vertex layout
descriptor, as matched by the GL example. -/
inductive DataFormat where
  | Float
  | UnsignedByte
deriving DecidableEq, Repr

/-- Modelled from the spec: `piet_gpu::VertexFormat`, one vertex layout
descriptor (role, component format, component count, stride, offset). -/
structure VertexFormat where
  data_type : DataType
  format : DataFormat
  num_components : ℕ
  stride : ℕ
  offset : ℕ
deriving DecidableEq, Repr

/-- `piet_gpu::BufferType`. -/
inductive BufferType where
  | Vertex
  | Index
deriving DecidableEq, Repr

/-- `GlContext::clear`: asserts the context, then clears. -/
def gl_clear (has_context : Bool) : Except GlPanic Unit := do
  gl_assert_context has_context

/-- `GlContext::flush`: asserts the context, then flushes. -/
def gl_flush (has_context : Bool) : Except GlPanic Unit := do
  gl_assert_context has_context

/-- `GlContext::create_texture`: builds the texture and sampler parameters —
without asserting the context.  Only the `Color` and `Repeat` repeat
strategies are supported; anything else panics. -/
def gl_create_texture (_has_context : Bool) (_interpolation : InterpolationMode)
    (rep : RepeatStrategy) : Except GlPanic Unit :=
  match rep with
  | .Color _ => .ok ()
  | .Repeat => .ok ()
  | _ => .error .unsupportedRepeatStrategy

/-- `GlContext::delete_texture`: asserts the context, then deletes. -/
def gl_delete_texture (has_context : Bool) : Except GlPanic Unit := do
  gl_assert_context has_context

/-- `GlContext::write_texture`: asserts the context, then requires the
`Rgba` format. -/
def gl_write_texture (has_context : Bool) (format : GlImageFormat) :
    Except GlPanic Unit := do
  gl_assert_context has_context
  match format with
  | .Rgba => .ok ()

/-- `GlContext::write_subtexture`: asserts the context, then requires the
`Rgba` format. -/
def gl_write_subtexture (has_context : Bool) (format : GlImageFormat) :
    Except GlPanic Unit := do
  gl_assert_context has_context
  match format with
  | .Rgba => .ok ()

/-- `GlContext::set_texture_interpolation`: asserts the context. -/
def gl_set_texture_interpolation (has_context : Bool)
    (_interpolation : InterpolationMode) : Except GlPanic Unit := do
  gl_assert_context has_context

/-- `GlContext::max_texture_size`: asserts the context. -/
def gl_max_texture_size (has_context : Bool) : Except GlPanic Unit := do
  gl_assert_context has_context

/-- `GlContext::create_buffer`: asserts the context. -/
def gl_create_buffer (has_context : Bool) : Except GlPanic Unit := do
  gl_assert_context has_context

/-- `GlContext::write_buffer`: asserts the context, then binds per buffer
type. -/
def gl_write_buffer (has_context : Bool) (_ty : BufferType) :
    Except GlPanic Unit := do
  gl_assert_context has_context

/-- `GlContext::delete_buffer`: asserts the context. -/
def gl_delete_buffer (has_context : Bool) : Except GlPanic Unit := do
  gl_assert_context has_context

/-- `GlContext::create_vertex_array`: builds the attribute bindings for each
descriptor — without asserting the context.  Unknown roles or component
formats panic. -/
def gl_create_vertex_array (_has_context : Bool) (formats : List VertexFormat) :
    Except GlPanic Unit :=
  formats.foldlM
    (fun _ f => do
      match f.data_type with
      | .Position => pure ()
      | .Texture => pure ()
      | .Color => pure ()
      match f.format with
      | .Float => pure ()
      | .UnsignedByte => pure ())
    ()

/-- `GlContext::delete_vertex_array`: asserts the context. -/
def gl_delete_vertex_array (has_context : Bool) : Except GlPanic Unit := do
  gl_assert_context has_context

/-- `GlContext::push_buffers`: binds program, uniforms, textures, buffers
and issues the draw call — without asserting the context and without any
panicking arm. -/
def gl_push_buffers (_has_context : Bool) (_num_indices : ℕ) :
    Except GlPanic Unit :=
  .ok ()

/-- `create_vertex_array` never fails on the supported descriptor variants,
context or no context. -/
theorem gl_create_vertex_array_ok (hc : Bool) (formats : List VertexFormat) :
    gl_create_vertex_array hc formats = .ok () := by
  induction formats with
  | nil => rfl
  | cons f rest ih =>
    simp only [gl_create_vertex_array, List.foldlM] at ih ⊢
    cases hd : f.data_type <;> cases hf : f.format <;>
      simpa [hd, hf] using ih

/-- **C7 — counterexample.**  The claim says every GPU-contract operation
invoked with the device context unset panics.  But `create_texture`,
`create_vertex_array` and `push_buffers` never call `assert_context`: with
the context unset they run to completion and return `Ok`. -/
theorem c7_counterexample :
    gl_create_texture false .Bilinear .Repeat = .ok () ∧
    gl_create_vertex_array false [] = .ok () ∧
    gl_push_buffers false 6 = .ok () := by
  exact ⟨rfl, rfl, rfl⟩

/-- **C7 (amended).**  With the context unset, `clear`, `flush`,
`delete_texture`, `write_texture`, `write_subtexture`,
`set_texture_interpolation`, `max_texture_size`, `create_buffer`,
`write_buffer`, `delete_buffer` and `delete_vertex_array` all panic with the
no-context assertion, while `create_texture`, `create_vertex_array` and
`push_buffers` perform no context check: they execute (and, for supported
arguments, succeed) with the context unset. -/
theorem c7_context_assertions :
    gl_clear false = .error .noContext ∧
    gl_flush false = .error .noContext ∧
    gl_delete_texture false = .error .noContext ∧
    (∀ fmt : GlImageFormat, gl_write_texture false fmt = .error .noContext) ∧
    (∀ fmt : GlImageFormat, gl_write_subtexture false fmt = .error .noContext) ∧
    (∀ m : InterpolationMode,
      gl_set_texture_interpolation false m = .error .noContext) ∧
    gl_max_texture_size false = .error .noContext ∧
    gl_create_buffer false = .error .noContext ∧
    (∀ ty : BufferType, gl_write_buffer false ty = .error .noContext) ∧
    gl_delete_buffer false = .error .noContext ∧
    gl_delete_vertex_array false = .error .noContext ∧
    (∀ (interp : InterpolationMode) (rep : RepeatStrategy),
      gl_create_texture false interp rep ≠ .error .noContext) ∧
    (∀ formats : List VertexFormat,
      gl_create_vertex_array false formats = .ok ()) ∧
    (∀ n : ℕ, gl_push_buffers false n = .ok ()) := by
  refine ⟨rfl, rfl, rfl, fun fmt => ?_, fun fmt => ?_, fun m => rfl, rfl, rfl,
    fun ty => rfl, rfl, rfl, fun interp rep => ?_, gl_create_vertex_array_ok false,
    fun n => rfl⟩
  · cases fmt
    rfl
  · cases fmt
    rfl
  · cases rep <;> simp [gl_create_texture]
